import Mathlib

/-!
Shallow embedding of the qeasy-frontend listing pipeline.

Sources embedded here:
- the Qoo10 category classifier module (keyword tables, isSupplement,
  isBeautyAppliance, isDailyRazor, getMainCategoryCode, getBeautySecondSubCat,
  classifyQoo10Category);
- the App module utilities (applyRule, stripWords, parseAsinCsv, chooseCategory),
  the per-candidate rule chain of runListing, and the result grouping of
  ListingResultInline;
- the API wrappers (fetchAmazonBulk, checkQoo10Existing, createQoo10Listings),
  modelled as pure functions of the transport outcome.

Modelling conventions: JS numbers are embedded as rationals (prices,
multipliers) or integers (counts, day estimates); strings are Lean strings,
with the JS string operations (includes, trim, split, toUpperCase,
toLowerCase, replace of quote runs) embedded as executable functions over the
underlying character lists.  Case mapping is embedded for the ASCII range,
which is the range the embedded data exercises.  Optional or nullable values
become Option.
-/

/-! ### JS string primitives -/

/-- startsWithL sub s is true when sub is a prefix of s. -/
def startsWithL : List Char → List Char → Bool
  | [], _ => true
  | _ :: _, [] => false
  | a :: as, b :: bs => a == b && startsWithL as bs

/-- occursIn sub s is true when sub occurs contiguously inside s
(the semantics of JS includes on strings). -/
def occursIn (sub : List Char) : List Char → Bool
  | [] => sub.isEmpty
  | c :: rest => startsWithL sub (c :: rest) || occursIn sub rest

/-- Models JS s.includes(sub). -/
def jsIncludes (s sub : String) : Bool := occursIn sub.data s.data

/-- Models the ECMAScript WhiteSpace and LineTerminator character class
(the class trimmed by String.prototype.trim and matched by the \s regex
class). -/
def isJsSpace (c : Char) : Bool :=
  decide (c.toNat = 9) || decide (c.toNat = 10) || decide (c.toNat = 11) ||
  decide (c.toNat = 12) || decide (c.toNat = 13) || decide (c.toNat = 32) ||
  decide (c.toNat = 160) || decide (c.toNat = 0x1680) ||
  decide (0x2000 ≤ c.toNat ∧ c.toNat ≤ 0x200A) ||
  decide (c.toNat = 0x2028) || decide (c.toNat = 0x2029) ||
  decide (c.toNat = 0x202F) || decide (c.toNat = 0x205F) ||
  decide (c.toNat = 0x3000) || decide (c.toNat = 0xFEFF)

/-- Models JS String.prototype.trim on the character list. -/
def trimL (l : List Char) : List Char :=
  ((l.dropWhile isJsSpace).reverse.dropWhile isJsSpace).reverse

/-- Models JS s.trim(). -/
def jsTrim (s : String) : String := String.mk (trimL s.data)

/-- ASCII lower-casing of one character, the fragment of JS toLowerCase
exercised by the embedded data. -/
def jsLowerChar (c : Char) : Char :=
  if 65 ≤ c.toNat ∧ c.toNat ≤ 90 then Char.ofNat (c.toNat + 32) else c

/-- ASCII upper-casing of one character, the fragment of JS toUpperCase
exercised by the embedded data. -/
def jsUpperChar (c : Char) : Char :=
  if 97 ≤ c.toNat ∧ c.toNat ≤ 122 then Char.ofNat (c.toNat - 32) else c

/-- Models JS s.toLowerCase(). -/
def jsLower (s : String) : String := String.mk (s.data.map jsLowerChar)

/-- Models the JS falsy-or on strings: a || b is b when a is empty. -/
def jsOr (a b : String) : String := if a = "" then b else a

/-! ### Category classifier (qoo10Category module) -/

def SUPPLEMENT_KEYWORDS : List String :=
  ["サプリメント", "サプリ", "健康食品", "機能性表示食品", "プロテイン",
   "ホエイプロテイン", "ソイプロテイン", "青汁", "酵素", "乳酸菌",
   "オメガ3", "EPA", "DHA", "ダイエットサプリ", "美容サプリ"]

def isSupplement (title : String) : Bool :=
  SUPPLEMENT_KEYWORDS.any (fun kw => jsIncludes title kw)

def BEAUTY_APPLIANCE_KEYWORDS : List String :=
  ["ドライヤー", "ヘアドライヤー", "ヘアードライヤー",
   "ヘアアイロン", "ストレートアイロン", "カールアイロン", "2WAYアイロン",
   "2WAY ヘアアイロン", "コテ",
   "美顔器", "フェイススチーマー", "イオンスチーマー", "スチーマー"]

def ELECTRIC_HINTS : List String :=
  ["電動", "電気", "充電式", "コードレス", "IPX", "防水"]

def RAZOR_KEYWORDS : List String :=
  ["カミソリ", "髭剃り", "ひげそり", "ヒゲソリ", "シェーバー", "シェイバー"]

def DAILY_RAZOR_HINTS : List String :=
  ["替刃", "替え刃", "ホルダー(刃付き", "剃刀"]

def isBeautyAppliance (title : String) : Bool :=
  if BEAUTY_APPLIANCE_KEYWORDS.any (fun kw => jsIncludes title kw) then true
  else if RAZOR_KEYWORDS.any (fun kw => jsIncludes title kw) &&
          ELECTRIC_HINTS.any (fun kw => jsIncludes title kw) then true
  else false

def isDailyRazor (title : String) : Bool :=
  if !(RAZOR_KEYWORDS.any (fun kw => jsIncludes title kw)) then false
  else if !(ELECTRIC_HINTS.any (fun kw => jsIncludes title kw)) then true
  else if DAILY_RAZOR_HINTS.any (fun kw => jsIncludes title kw) then true
  else false

/-- Main category codes are kept as their source string literals. -/
def getMainCategoryCode (titleRaw : Option String) : String :=
  let title := titleRaw.getD ""
  if isSupplement title then "130000"
  else if isBeautyAppliance title then "120000033"
  else if isDailyRazor title then "100000018"
  else "120000"

structure BeautyRule where
  code : String
  keywords : List String

def BEAUTY_RULES : List BeautyRule :=
  [⟨"120000017",
    ["日焼け止め", "UVケア", "UVカット", "サンスクリーン", "サンブロック",
     "サンプロテクター", "サンクッション", "UVクリーム", "UVミルク", "UVジェル"]⟩,
   ⟨"120000013",
    ["ファンデーション", "クッションファンデ", "クッションファンデーション",
     "リキッドファンデ", "パウダーファンデ", "BBクリーム", "CCクリーム",
     "化粧下地", "メイク下地", "プライマー", "コンシーラー", "フェイスパウダー",
     "ルースパウダー", "プレストパウダー", "トーンアップベース", "トーンアップクリーム"]⟩,
   ⟨"120000014",
    ["アイシャドウ", "アイグロス", "アイライナー", "ジェルライナー",
     "ペンシルライナー", "マスカラ", "チーク", "ブラッシュ", "ハイライト",
     "シェーディング", "コントゥア", "リップ", "口紅", "グロス", "ティント",
     "リップオイル", "リップバーム", "アイブロウ", "眉マスカラ", "ブロウ"]⟩,
   ⟨"120000020",
    ["シャンプー", "ｼｬﾝﾌﾟｰ", "コンディショナー", "トリートメント", "ヘアマスク",
     "ヘアパック", "ヘアオイル", "ヘアミスト", "ヘアエッセンス", "ヘアスプレー",
     "ヘアワックス", "スタイリング", "スタイリングジェル", "育毛剤", "スカルプ",
     "頭皮ケア", "ヘアカラー", "白髪染め", "ヘナ"]⟩,
   ⟨"120000021",
    ["ネイル", "マニキュア", "ジェルネイル", "トップコート", "ベースコート",
     "ネイルポリッシュ", "ネイルカラー", "ネイルオイル", "キューティクルオイル"]⟩,
   ⟨"120000022",
    ["香水", "フレグランス", "オードトワレ", "オードパルファム", "オーデコロン",
     "ボディミスト", "ヘアミスト", "パルファム"]⟩,
   ⟨"120000018",
    ["ボディクリーム", "ボディミルク", "ボディローション", "ボディジェル",
     "ボディオイル", "ボディソープ", "ボディウォッシュ", "シャワージェル",
     "ハンドクリーム", "ハンドジェル", "ハンドローション", "フットクリーム",
     "フットケア", "ボディスクラブ", "ボディスクラップ", "バスソルト", "入浴剤",
     "バスボム", "デオドラント", "制汗", "ボディバター", "ボディミスト"]⟩,
   ⟨"120000012",
    ["化粧水", "ローション", "トナー", "乳液", "エマルジョン", "美容液",
     "セラム", "エッセンス", "アンプル", "クリーム", "ジェルクリーム", "ジェル",
     "オールインワンジェル", "オールインワンゲル", "クレンジング",
     "クレンジングオイル", "クレンジングバーム", "クレンジングジェル",
     "クレンジングミルク", "洗顔", "洗顔フォーム", "フォームクレンザー",
     "シートマスク", "フェイスマスク", "マスク", "パック", "スリーピングマスク",
     "スリーピングパック", "ピーリング", "スクラブ", "角質ケア", "CICA", "シカ",
     "美白美容液", "毛穴ケア"]⟩]

/-- First beauty rule (in list order) with a keyword occurring in the title
wins; skin care is the fallback. -/
def getBeautySecondSubCat (title : String) : String :=
  match BEAUTY_RULES.find? (fun rule => rule.keywords.any (fun kw => jsIncludes title kw)) with
  | some rule => rule.code
  | none => "120000012"

structure Qoo10CategoryDecision where
  main : String
  beautySecondSubCat : Option String
  deriving DecidableEq, Repr

def classifyQoo10Category (title : Option String) : Qoo10CategoryDecision :=
  let main := getMainCategoryCode title
  if main = "120000" then
    { main := main, beautySecondSubCat := some (getBeautySecondSubCat (title.getD "")) }
  else
    { main := main, beautySecondSubCat := none }

/-! ### Price transformer (applyRule) -/

structure PriceRule where
  min : ℚ
  max : Option ℚ
  multiply : ℚ
  plus : ℚ
  deriving DecidableEq

/-- Models JS Math.round for the arguments this program produces: round half
up, computed with the executable rational floor. -/
def jsRound (q : ℚ) : ℤ := Rat.floor (q + 1/2)

/-- The matching condition of applyRule: lower bound at most the price and,
when an upper bound is set, the price at most the upper bound. -/
def ruleMatches (price : ℚ) (rr : PriceRule) : Bool :=
  match rr.max with
  | some m => decide (rr.min ≤ price) && decide (price ≤ m)
  | none => decide (rr.min ≤ price)

/-- Embeds the applyRule helper of the App module: non-positive input maps to
0, otherwise the first matching rule in list order is applied and the result
rounded and clamped to at least 1; an unmatched positive price passes through
(rounded and clamped). -/
def applyRule (price : ℚ) (rules : List PriceRule) : ℤ :=
  if price ≤ 0 then 0
  else
    let result : ℚ :=
      match rules.find? (ruleMatches price) with
      | some r => price * r.multiply + r.plus
      | none => price
    max 1 (jsRound result)

/-- The absent-price case of applyRule: a missing input is falsy in the
source guard and maps to 0. -/
def applyRuleOpt (price : Option ℚ) (rules : List PriceRule) : ℤ :=
  match price with
  | none => 0
  | some q => applyRule q rules

/-! ### Data model (App module and API types) -/

structure AmazonItemInfo where
  asin : String
  price : Option ℚ
  sellerCount : Option ℤ
  title : Option String
  image : Option String
  isPrime : Option Bool
  shipDays : Option ℤ
  deriving DecidableEq

structure Product where
  id : ℤ
  asin : String
  name : String
  jan : Option String
  qoo10Id : Option String
  mainImage : String
  amazonPrice : ℚ
  inStock : Option Bool
  updatedAt : String
  deriving DecidableEq

structure SettingsState where
  primeOnly : Bool
  primeShipDaysMax : ℤ
  maxStockPerItem : ℤ
  shippingCode : String
  rules : List PriceRule
  noListASINs : List String
  noListWords : List String
  nameEraseWords : List String
  keepASINsOnDelete : List String
  categoryMap : List (String × ℤ)
  autoCategoryEnabled : Bool
  notifyOnSuccess : Bool
  notifyOnError : Bool
  autoApplyTemplate : Bool
  deriving DecidableEq

inductive ListingStatus
  | success
  | exists_
  | forbidden
  | error
  deriving DecidableEq, Repr

structure ListingResultItem where
  asin : String
  name : String
  status : ListingStatus
  message : String
  hitWords : Option (List String)
  qoo10ItemCode : Option String
  deriving DecidableEq

structure Qoo10ListingPayload where
  asin : String
  price : ℤ
  shippingCode : String
  title : String
  imageUrl : Option String
  categoryNo : Option ℤ
  stock : Option ℤ
  jan : Option String
  deriving DecidableEq

structure CreateListingResult where
  asin : String
  ok : Bool
  message : Option String
  code : Option String
  qoo10ItemCode : Option String
  deriving DecidableEq

/-- The default settings snapshot of the App module. -/
def DEFAULT_SETTINGS : SettingsState where
  primeOnly := true
  primeShipDaysMax := 3
  maxStockPerItem := 2
  shippingCode := "645035"
  rules :=
    [⟨1, some 3000, 1.2, 400⟩, ⟨3001, some 6000, 1.2, 500⟩, ⟨6001, none, 1.2, 600⟩]
  noListASINs := []
  noListWords := []
  nameEraseWords := ["Amazon.co.jp 限定", "発送"]
  keepASINsOnDelete := []
  categoryMap := [("ヘナ", 120000), ("シャンプー", 120000), ("サプリ", 130000)]
  autoCategoryEnabled := true
  notifyOnSuccess := true
  notifyOnError := true
  autoApplyTemplate := true

/-! ### stripWords -/

/-- Worker of removeAllSub: skip counts characters of a matched occurrence
still to be consumed without being emitted. -/
def removeAllAux (w : List Char) (skip : Nat) : List Char → List Char
  | [] => []
  | c :: rest =>
    match skip with
    | k + 1 => removeAllAux w k rest
    | 0 =>
      if w ≠ [] ∧ startsWithL w (c :: rest) then
        removeAllAux w (w.length - 1) rest
      else c :: removeAllAux w 0 rest

/-- Removes every leftmost, non-overlapping occurrence of w (the semantics of
JS split by a string followed by join of the pieces).  The source only calls
this with non-empty w (falsy words are skipped by the caller); on empty w the
definition is the identity, as the JS split/join round trip is. -/
def removeAllSub (w : List Char) (l : List Char) : List Char :=
  removeAllAux w 0 l

/-- Collapses each whitespace run to one space, the JS replace of the \s+
pattern by a single space. -/
def collapseWs : List Char → List Char
  | [] => []
  | [c] => [if isJsSpace c then ' ' else c]
  | c :: d :: rest =>
    if isJsSpace c ∧ isJsSpace d then collapseWs (d :: rest)
    else (if isJsSpace c then ' ' else c) :: collapseWs (d :: rest)

/-- Embeds the stripWords helper of the App module: each configured word is
removed wherever it occurs (empty words skipped), then whitespace is collapsed
and the result trimmed. -/
def stripWords (title : String) (words : List String) : String :=
  let t := words.foldl
    (fun t w => if w = "" then t else removeAllSub w.data t) title.data
  String.mk (trimL (collapseWs t))

/-! ### Category auto-assignment (chooseCategory) -/

/-- The raw title used by chooseCategory: the fetched title, falling back to
the product name and then the empty string (JS falsy-or chain). -/
def rawTitleOf (info? : Option AmazonItemInfo) (p : Product) : String :=
  jsOr (jsOr ((info?.bind AmazonItemInfo.title).getD "") p.name) ""

/-- One manual category-map entry hits when its key is non-empty and the
lower-cased key occurs in the lower-cased title. -/
def manualHit (titleLower : String) (e : String × ℤ) : Bool :=
  decide (e.1 ≠ "") && jsIncludes titleLower (jsLower e.1)

/-- Models the JS Number conversion as applied to the category code strings
of the classifier. -/
def jsNumberOfCode (s : String) : ℤ := (s.toInt?).getD 0

/-- Embeds chooseCategory of the App module: manual keyword map first (stored
order, first hit wins, returned as-is), then, when auto classification is
enabled, the classifier cascade; beauty titles contribute their sub-category
code, every other main category contributes its own code. -/
def chooseCategory (info? : Option AmazonItemInfo) (p : Product)
    (settings : SettingsState) : Option ℤ :=
  let rawTitle := rawTitleOf info? p
  let titleLower := jsLower rawTitle
  match settings.categoryMap.find? (manualHit titleLower) with
  | some e => some e.2
  | none =>
    if settings.autoCategoryEnabled = false then none
    else
      let decision := classifyQoo10Category (some rawTitle)
      if decision.main = "120000" then
        some (jsNumberOfCode (decision.beautySecondSubCat.getD "120000012"))
      else
        some (jsNumberOfCode decision.main)

/-! ### Per-candidate rule chain of runListing -/

/-- A loop iteration of runListing either records an outcome immediately or
emits a listing payload for the batch submission. -/
inductive CandidateStep
  | result (r : ListingResultItem)
  | payload (pl : Qoo10ListingPayload)
  deriving DecidableEq

/-- Discriminator: the iteration emitted a payload rather than a terminal
outcome. -/
def CandidateStep.isPayload : CandidateStep → Bool
  | .result _ => false
  | .payload _ => true

def availabilityMsg : String := "Amazon価格が取得できませんでした。"

def primeMsg (shipDays : Option ℤ) : String :=
  "Prime条件を満たさないため除外（出荷まで " ++
    (match shipDays with | some d => toString d | none => "-") ++ "日）"

def sellerMsg (n : ℤ) : String :=
  "出品者が1人のみのため除外しました。（" ++ toString n ++ "人）"

def asinDenyMsg : String := "出品不可ASINに登録されています。"

def wordDenyMsg (hitWords : List String) : String :=
  "禁止ワード(" ++ String.intercalate ", " hitWords ++ ")が含まれているため除外しました。"

def existsMsg : String := "Qoo10に同一ASINの商品が既に存在します。"

def priceErrMsg : String := "価格ルール適用後の価格が不正のため除外しました。"

/-- The ship-days half of the Prime rejection test: a known estimate above
the configured maximum. -/
def shipTooSlow (info : AmazonItemInfo) (s : SettingsState) : Bool :=
  match info.shipDays with
  | some d => decide (s.primeShipDaysMax < d)
  | none => false

/-- The nonempty words of the deny list occurring in the display name; the
source captures all of them, in configured order. -/
def wordHits (s : SettingsState) (name : String) : List String :=
  s.noListWords.filter (fun w => decide (w ≠ "") && jsIncludes name w)

/-- Step 7 and 8 of the chain: strip configured words from the title, apply
the price rules, reject on a non-positive computed price, otherwise build the
payload. -/
def buildPayload (s : SettingsState) (info : AmazonItemInfo) (p : Product)
    (pr : ℚ) : CandidateStep :=
  let title := stripWords (jsOr (info.title.getD "") p.name) s.nameEraseWords
  let price := applyRule pr s.rules
  if price ≤ 0 then
    .result ⟨p.asin, p.name, .error, priceErrMsg, none, none⟩
  else
    .payload ⟨p.asin, price, s.shippingCode, title, info.image,
      chooseCategory (some info) p s,
      some (if 0 < s.maxStockPerItem then s.maxStockPerItem else 1), p.jan⟩

/-- Step 6: reject identifiers already present on the destination. -/
def checkExisting (s : SettingsState) (existsSet : List String)
    (info : AmazonItemInfo) (p : Product) (pr : ℚ) : CandidateStep :=
  if p.asin ∈ existsSet then
    .result ⟨p.asin, p.name, .exists_, existsMsg, none, none⟩
  else buildPayload s info p pr

/-- Step 5: reject names containing configured forbidden words, capturing
every hit. -/
def checkWords (s : SettingsState) (existsSet : List String)
    (info : AmazonItemInfo) (p : Product) (pr : ℚ) : CandidateStep :=
  if wordHits s p.name ≠ [] then
    .result ⟨p.asin, p.name, .forbidden, wordDenyMsg (wordHits s p.name),
      some (wordHits s p.name), none⟩
  else checkExisting s existsSet info p pr

/-- Step 4: reject explicitly denied identifiers. -/
def checkAsinDeny (s : SettingsState) (existsSet : List String)
    (info : AmazonItemInfo) (p : Product) (pr : ℚ) : CandidateStep :=
  if p.asin ∈ s.noListASINs then
    .result ⟨p.asin, p.name, .forbidden, asinDenyMsg, none, none⟩
  else checkWords s existsSet info p pr

/-- Step 3: the fixed seller-count rule; a known count of at most one is
rejected, an unknown count falls through. -/
def checkSeller (s : SettingsState) (existsSet : List String)
    (info : AmazonItemInfo) (p : Product) (pr : ℚ) : CandidateStep :=
  match info.sellerCount with
  | some n =>
    if n ≤ 1 then
      .result ⟨p.asin, p.name, .forbidden, sellerMsg n, none, none⟩
    else checkAsinDeny s existsSet info p pr
  | none => checkAsinDeny s existsSet info p pr

/-- Step 2: the Prime policy, active only when primeOnly is set. -/
def checkPrime (s : SettingsState) (existsSet : List String)
    (info : AmazonItemInfo) (p : Product) (pr : ℚ) : CandidateStep :=
  if s.primeOnly = true ∧ (info.isPrime = some false ∨ shipTooSlow info s = true) then
    .result ⟨p.asin, p.name, .forbidden, primeMsg info.shipDays, none, none⟩
  else checkSeller s existsSet info p pr

/-- Embeds one iteration of the runListing loop: availability first (no
data, or an absent or zero price, is an error outcome), then the rule chain
with its early returns. -/
def evalCandidate (s : SettingsState) (existsSet : List String)
    (info? : Option AmazonItemInfo) (p : Product) : CandidateStep :=
  match info? with
  | none => .result ⟨p.asin, p.name, .error, availabilityMsg, none, none⟩
  | some info =>
    match info.price with
    | none => .result ⟨p.asin, p.name, .error, availabilityMsg, none, none⟩
    | some pr =>
      if pr = 0 then .result ⟨p.asin, p.name, .error, availabilityMsg, none, none⟩
      else checkPrime s existsSet info p pr

/-! ### Result aggregation (ListingResultInline) -/

def aggExists (results : List ListingResultItem) : List ListingResultItem :=
  results.filter (fun r => r.status = .exists_)

def aggForbidden (results : List ListingResultItem) : List ListingResultItem :=
  results.filter (fun r => r.status = .forbidden)

def aggError (results : List ListingResultItem) : List ListingResultItem :=
  results.filter (fun r => r.status = .error)

def aggSuccess (results : List ListingResultItem) : List ListingResultItem :=
  results.filter (fun r => r.status = .success)

/-! ### API wrappers (qeasy api module) -/

/-- The transport outcome of one HTTP call: a parsed response, or a thrown
failure (non-ok status or unreachable service). -/
inductive ApiResult (α : Type)
  | ok (v : α)
  | fail (msg : String)

/-- Embeds fetchAmazonBulk: an empty request short-circuits to an empty list;
a transport failure degrades to an empty list. -/
def fetchAmazonBulk (asins : List String)
    (call : ApiResult (List AmazonItemInfo)) : List AmazonItemInfo :=
  if asins = [] then []
  else match call with
    | .ok v => v
    | .fail _ => []

/-- Embeds checkQoo10Existing: same shape as fetchAmazonBulk over identifier
lists. -/
def checkQoo10Existing (asins : List String)
    (call : ApiResult (List String)) : List String :=
  if asins = [] then []
  else match call with
    | .ok v => v
    | .fail _ => []

def createFailMsg : String := "出品API呼び出しに失敗しました。（サーバ未接続の可能性）"

/-- Embeds createQoo10Listings: an empty batch short-circuits; a transport
failure degrades to one ok := false result per submitted payload. -/
def createQoo10Listings (items : List Qoo10ListingPayload)
    (call : ApiResult (List CreateListingResult)) : List CreateListingResult :=
  if items = [] then []
  else match call with
    | .ok v => v
    | .fail _ =>
      items.map (fun it =>
        { asin := it.asin, ok := false, message := some createFailMsg,
          code := none, qoo10ItemCode := none })

/-! ### ASIN CSV parser (parseAsinCsv) -/

/-- Splits on LF only; pieces keep any CR that preceded the LF. -/
def splitOnLF : List Char → List (List Char)
  | [] => [[]]
  | c :: rest =>
    if c = '\n' then [] :: splitOnLF rest
    else
      match splitOnLF rest with
      | [] => [[c]]
      | piece :: more => (c :: piece) :: more

/-- Drops one trailing CR, the optional CR of the line-break pattern. -/
def dropTrailingCR (l : List Char) : List Char :=
  if l.getLast? = some '\r' then l.dropLast else l

/-- Applies f to every element except the last. -/
def mapInit (f : List Char → List Char) : List (List Char) → List (List Char)
  | [] => []
  | [x] => [x]
  | x :: xs => f x :: mapInit f xs

/-- Splits on the line-break pattern of the source (LF, optionally preceded
by CR); a lone CR is not a separator. -/
def splitLines (l : List Char) : List (List Char) :=
  mapInit dropTrailingCR (splitOnLF l)

/-- The cell delimiter class of the source: comma, semicolon or tab. -/
def isCellDelim (c : Char) : Bool :=
  decide (c = ',') || decide (c = ';') || decide (c = '\t')

def splitCellsAux (acc : List Char) : List Char → List (List Char)
  | [] => [acc.reverse]
  | c :: rest =>
    if isCellDelim c then acc.reverse :: splitCellsAux [] rest
    else splitCellsAux (c :: acc) rest

/-- Splits a row into cells on comma, semicolon or tab. -/
def splitCells (l : List Char) : List (List Char) := splitCellsAux [] l

/-- The quote class stripped from cell boundaries. -/
def isQuoteCh (c : Char) : Bool := decide (c = '"') || decide (c = '\'')

/-- Models the replace of a leading and a trailing quote run by nothing. -/
def stripQuotesL (l : List Char) : List Char :=
  ((l.dropWhile isQuoteCh).reverse.dropWhile isQuoteCh).reverse

/-- The identifier pattern: exactly ten characters, each an ASCII letter or
digit (the test is case-insensitive). -/
def isAlnumCI (c : Char) : Bool :=
  decide (65 ≤ c.toNat ∧ c.toNat ≤ 90) ||
  decide (97 ≤ c.toNat ∧ c.toNat ≤ 122) ||
  decide (48 ≤ c.toNat ∧ c.toNat ≤ 57)

def asinTest (l : List Char) : Bool :=
  decide (l.length = 10) && l.all isAlnumCI

/-- Characters of a normalized identifier: upper-case ASCII letter or digit
(the image of the accepted characters under upper-casing). -/
def isUpperAlnum (c : Char) : Bool :=
  decide (65 ≤ c.toNat ∧ c.toNat ≤ 90) || decide (48 ≤ c.toNat ∧ c.toNat ≤ 57)

/-- First-occurrence deduplication, the iteration order of a JS Set built by
insertion. -/
def dedupJsAux (seen : List (List Char)) : List (List Char) → List (List Char)
  | [] => []
  | a :: l => if a ∈ seen then dedupJsAux seen l else a :: dedupJsAux (a :: seen) l

def dedupJs (l : List (List Char)) : List (List Char) := dedupJsAux [] l

/-- Processes one data row: pick the chosen column (skipping short rows),
trim, strip quotes, trim, drop empty cells, keep pattern matches upper-cased. -/
def extractCell (asinIdx : Option Nat) (row : List Char) : Option (List Char) :=
  if row = [] then none
  else
    let cells := splitCells row
    let idx := asinIdx.getD 0
    match cells.get? idx with
    | none => none
    | some cell =>
      let cleaned := trimL (stripQuotesL (trimL cell))
      if cleaned = [] then none
      else if asinTest cleaned then some (cleaned.map jsUpperChar) else none

/-- The header token compared against the lower-cased first-row cells. -/
def asinHeaderToken : List Char := ['a', 's', 'i', 'n']

/-- Embeds parseAsinCsv of the App module on character lists: split into
lines, trim each, drop blanks, strip a leading BOM from the first line,
detect a header column named asin, then collect and deduplicate the
pattern-matching cells. -/
def parseAsinCsvL (text : List Char) : List (List Char) :=
  let lines := ((splitLines text).map trimL).filter (fun l => l ≠ [])
  match lines with
  | [] => []
  | l0 :: rest =>
    let l0 := if l0.head? = some '\uFEFF' then l0.drop 1 else l0
    let headerCells :=
      (splitCells l0).map (fun c => (trimL (stripQuotesL c)).map jsLowerChar)
    match headerCells.findIdx? (fun c => c = asinHeaderToken) with
    | some k => dedupJs (rest.filterMap (extractCell (some k)))
    | none => dedupJs ((l0 :: rest).filterMap (extractCell none))

/-- String-level entry point of the parser. -/
def parseAsinCsv (text : String) : List String :=
  (parseAsinCsvL text.data).map String.mk

/-- Joining with a LF separator, the round-trip input of the idempotence
property. -/
def intercalateNL : List (List Char) → List Char
  | [] => []
  | [x] => x
  | x :: xs => x ++ '\n' :: intercalateNL xs

def joinNL (ls : List String) : String :=
  String.mk (intercalateNL (ls.map String.data))

/-! ### Sample data for concrete instances -/

/-- A settings snapshot with every optional rule disabled, used to exercise
single rules in isolation. -/
def plainSettings : SettingsState where
  primeOnly := false
  primeShipDaysMax := 3
  maxStockPerItem := 2
  shippingCode := "645035"
  rules := []
  noListASINs := []
  noListWords := []
  nameEraseWords := []
  keepASINsOnDelete := []
  categoryMap := []
  autoCategoryEnabled := false
  notifyOnSuccess := true
  notifyOnError := true
  autoApplyTemplate := true

def sampleProduct : Product where
  id := 1
  asin := "B00TEST001"
  name := "テスト商品"
  jan := none
  qoo10Id := none
  mainImage := ""
  amazonPrice := 100
  inStock := some true
  updatedAt := ""

def sampleInfo : AmazonItemInfo where
  asin := "B00TEST001"
  price := some 100
  sellerCount := some 5
  title := some "テスト商品"
  image := none
  isPrime := some true
  shipDays := some 1

/-! ### Helper lemmas -/

/-- The executable rational floor agrees with the floor of the FloorRing
instance. -/
theorem ratFloor_eq_intFloor (q : ℚ) : Rat.floor q = ⌊q⌋ :=
  (Rat.floor_def' q).trans Rat.floor_def.symm

theorem jsRound_eq_floor (q : ℚ) : jsRound q = ⌊q + 1/2⌋ :=
  ratFloor_eq_intFloor _

theorem applyRule_nonpos {price : ℚ} (rules : List PriceRule) (h : price ≤ 0) :
    applyRule price rules = 0 := by
  simp [applyRule, h]

theorem applyRule_find_some {price : ℚ} {rules : List PriceRule} {r : PriceRule}
    (h : 0 < price) (hf : rules.find? (ruleMatches price) = some r) :
    applyRule price rules = max 1 (jsRound (price * r.multiply + r.plus)) := by
  unfold applyRule
  rw [if_neg (not_le.mpr h), hf]

theorem applyRule_find_none {price : ℚ} {rules : List PriceRule}
    (h : 0 < price) (hf : rules.find? (ruleMatches price) = none) :
    applyRule price rules = max 1 (jsRound price) := by
  unfold applyRule
  rw [if_neg (not_le.mpr h), hf]

theorem applyRule_pos_ge_one {price : ℚ} (rules : List PriceRule) (h : 0 < price) :
    1 ≤ applyRule price rules := by
  unfold applyRule
  rw [if_neg (not_le.mpr h)]
  exact le_max_left _ _

theorem ruleMatches_iff (price : ℚ) (rr : PriceRule) :
    ruleMatches price rr = true ↔
      (rr.min ≤ price ∧ ∀ m, rr.max = some m → price ≤ m) := by
  unfold ruleMatches
  cases h : rr.max with
  | none => simp
  | some m => simp

/-- The boundary rule of the default settings, as its own value. -/
theorem boundaryRule_find_3000 :
    [PriceRule.mk 1 (some 3000) 1.2 400].find? (ruleMatches 3000) =
      some (PriceRule.mk 1 (some 3000) 1.2 400) := by
  simp only [List.find?]
  have : ruleMatches 3000 (PriceRule.mk 1 (some 3000) 1.2 400) = true := by
    rw [ruleMatches_iff]
    refine ⟨by norm_num, ?_⟩
    rintro m ⟨rfl⟩
    norm_num
  rw [this]

theorem boundaryRule_find_3001 :
    [PriceRule.mk 1 (some 3000) 1.2 400].find? (ruleMatches 3001) = none := by
  simp only [List.find?]
  have : ruleMatches 3001 (PriceRule.mk 1 (some 3000) 1.2 400) = false := by
    unfold ruleMatches
    simp only []
    norm_num
  rw [this]

theorem jsRound_4000 : jsRound ((3000 : ℚ) * 1.2 + 400) = 4000 := by
  rw [jsRound_eq_floor]
  rw [show ((3000 : ℚ) * 1.2 + 400 + 1/2) = 8001/2 by norm_num]
  rw [Int.floor_eq_iff]
  norm_num

theorem jsRound_3001 : jsRound (3001 : ℚ) = 3001 := by
  rw [jsRound_eq_floor]
  rw [Int.floor_eq_iff]
  norm_num

theorem jsRound_100 : jsRound (100 : ℚ) = 100 := by
  rw [jsRound_eq_floor]
  rw [Int.floor_eq_iff]
  norm_num

/-- Claim C2: applyRule returns 0 for non-positive or absent prices; for a
positive price it applies the first matching rule in list order (lower bound
at most the price, and the price at most the upper bound when one is set),
rounds and clamps to at least 1; an unmatched positive price passes through
rounded and clamped; rules of the boundary example map 3000 to 4000 and pass
3001 through. -/
theorem c2_applyRule_contract :
    (∀ (price : ℚ) (rules : List PriceRule), price ≤ 0 → applyRule price rules = 0)
  ∧ (∀ rules : List PriceRule, applyRuleOpt none rules = 0)
  ∧ (∀ (price : ℚ) (rr : PriceRule),
      ruleMatches price rr = true ↔ (rr.min ≤ price ∧ ∀ m, rr.max = some m → price ≤ m))
  ∧ (∀ (price : ℚ) (rules : List PriceRule) (r : PriceRule), 0 < price →
      rules.find? (ruleMatches price) = some r →
      applyRule price rules = max 1 (jsRound (price * r.multiply + r.plus)))
  ∧ (∀ (price : ℚ) (rules : List PriceRule), 0 < price →
      rules.find? (ruleMatches price) = none →
      applyRule price rules = max 1 (jsRound price))
  ∧ applyRule 3000 [PriceRule.mk 1 (some 3000) 1.2 400] = 4000
  ∧ applyRule 3001 [PriceRule.mk 1 (some 3000) 1.2 400] = 3001 := by
  refine ⟨fun _ rules h => applyRule_nonpos rules h,
          fun _ => rfl,
          ruleMatches_iff,
          fun _ _ _ h hf => applyRule_find_some h hf,
          fun _ _ h hf => applyRule_find_none h hf,
          ?_, ?_⟩
  · rw [applyRule_find_some (by norm_num) boundaryRule_find_3000, jsRound_4000]
    norm_num
  · rw [applyRule_find_none (by norm_num) boundaryRule_find_3001, jsRound_3001]
    norm_num

/-- Witness for C2: concrete instances discharging each hypothesis. -/
theorem c2_applyRule_contract_witness :
    ((-5 : ℚ) ≤ 0 ∧ applyRule (-5) [] = 0)
  ∧ (0 < (3000 : ℚ) ∧
      [PriceRule.mk 1 (some 3000) 1.2 400].find? (ruleMatches 3000) =
        some (PriceRule.mk 1 (some 3000) 1.2 400) ∧
      applyRule 3000 [PriceRule.mk 1 (some 3000) 1.2 400] =
        max 1 (jsRound (3000 * 1.2 + 400)))
  ∧ (0 < (5 : ℚ) ∧ ([] : List PriceRule).find? (ruleMatches 5) = none ∧
      applyRule 5 [] = max 1 (jsRound 5)) := by
  refine ⟨⟨by norm_num, c2_applyRule_contract.1 (-5) [] (by norm_num)⟩,
          ⟨by norm_num, boundaryRule_find_3000,
            c2_applyRule_contract.2.2.2.1 3000 _ _ (by norm_num) boundaryRule_find_3000⟩,
          ⟨by norm_num, rfl,
            c2_applyRule_contract.2.2.2.2.1 5 [] (by norm_num) rfl⟩⟩

/-! ### Status of the rule-chain outcomes for positive prices -/

theorem buildPayload_result_status {s : SettingsState} {info : AmazonItemInfo}
    {p : Product} {pr : ℚ} {r : ListingResultItem} (hpos : 0 < pr)
    (h : buildPayload s info p pr = .result r) : r.status ≠ .error := by
  have h1 : 1 ≤ applyRule pr s.rules := applyRule_pos_ge_one _ hpos
  unfold buildPayload at h
  rw [if_neg (by omega)] at h
  exact CandidateStep.noConfusion h

theorem checkExisting_result_status {s : SettingsState} {ex : List String}
    {info : AmazonItemInfo} {p : Product} {pr : ℚ} {r : ListingResultItem}
    (hpos : 0 < pr) (h : checkExisting s ex info p pr = .result r) :
    r.status ≠ .error := by
  unfold checkExisting at h
  split at h
  · cases h
    simp
  · exact buildPayload_result_status hpos h

theorem checkWords_result_status {s : SettingsState} {ex : List String}
    {info : AmazonItemInfo} {p : Product} {pr : ℚ} {r : ListingResultItem}
    (hpos : 0 < pr) (h : checkWords s ex info p pr = .result r) :
    r.status ≠ .error := by
  unfold checkWords at h
  split at h
  · cases h
    simp
  · exact checkExisting_result_status hpos h

theorem checkAsinDeny_result_status {s : SettingsState} {ex : List String}
    {info : AmazonItemInfo} {p : Product} {pr : ℚ} {r : ListingResultItem}
    (hpos : 0 < pr) (h : checkAsinDeny s ex info p pr = .result r) :
    r.status ≠ .error := by
  unfold checkAsinDeny at h
  split at h
  · cases h
    simp
  · exact checkWords_result_status hpos h

theorem checkSeller_result_status {s : SettingsState} {ex : List String}
    {info : AmazonItemInfo} {p : Product} {pr : ℚ} {r : ListingResultItem}
    (hpos : 0 < pr) (h : checkSeller s ex info p pr = .result r) :
    r.status ≠ .error := by
  unfold checkSeller at h
  split at h
  · split at h
    · cases h
      simp
    · exact checkAsinDeny_result_status hpos h
  · exact checkAsinDeny_result_status hpos h

theorem checkSeller_known_gt {s : SettingsState} {ex : List String}
    {info : AmazonItemInfo} {p : Product} {pr : ℚ} {n : ℤ}
    (hn : info.sellerCount = some n) (hgt : 1 < n) :
    checkSeller s ex info p pr = checkAsinDeny s ex info p pr := by
  unfold checkSeller
  simp only [hn]
  rw [if_neg (by omega)]

theorem checkSeller_unknown {s : SettingsState} {ex : List String}
    {info : AmazonItemInfo} {p : Product} {pr : ℚ}
    (hn : info.sellerCount = none) :
    checkSeller s ex info p pr = checkAsinDeny s ex info p pr := by
  unfold checkSeller
  simp only [hn]

theorem checkPrime_result_status {s : SettingsState} {ex : List String}
    {info : AmazonItemInfo} {p : Product} {pr : ℚ} {r : ListingResultItem}
    (hpos : 0 < pr) (h : checkPrime s ex info p pr = .result r) :
    r.status ≠ .error := by
  unfold checkPrime at h
  split at h
  · cases h
    simp
  · exact checkSeller_result_status hpos h

/-- Claim C10 (amended): applyRule returns at least 1 for every strictly
positive price and any rule list; consequently a candidate whose source price
is strictly positive never receives an error outcome from the rule chain (in
particular not the step-7 price rejection).  The availability check alone
does not guarantee this: it only excludes absent and zero prices, so a
negative source price passes it and does reach the step-7 error, as the
counterexample shows. -/
theorem c10_positive_price_no_error :
    (∀ (price : ℚ) (rules : List PriceRule), 0 < price → 1 ≤ applyRule price rules)
  ∧ (∀ (s : SettingsState) (ex : List String) (info : AmazonItemInfo) (p : Product)
      (pr : ℚ) (r : ListingResultItem), info.price = some pr → 0 < pr →
      evalCandidate s ex (some info) p = CandidateStep.result r →
      r.status ≠ ListingStatus.error) := by
  refine ⟨fun _ rules h => applyRule_pos_ge_one rules h, ?_⟩
  intro s ex info p pr r hpr hpos h
  simp only [evalCandidate, hpr] at h
  rw [if_neg hpos.ne'] at h
  exact checkPrime_result_status hpos h

/-- Counterexample for C10 as stated: a candidate with source price -100
passes the availability check (the price is present and non-zero) and still
receives the step-7 error outcome, because the rules map a negative price
to 0. -/
theorem c10_counterexample :
    (AmazonItemInfo.price { sampleInfo with price := some (-100) } = some (-100)
      ∧ ((-100 : ℚ) ≠ 0))
  ∧ evalCandidate DEFAULT_SETTINGS [] (some { sampleInfo with price := some (-100) })
      sampleProduct =
      CandidateStep.result
        ⟨"B00TEST001", "テスト商品", ListingStatus.error, priceErrMsg, none, none⟩ := by
  refine ⟨⟨rfl, by norm_num⟩, ?_⟩
  norm_num [evalCandidate, checkPrime, checkSeller, checkAsinDeny, checkWords,
    checkExisting, buildPayload, shipTooSlow, wordHits, sampleInfo, sampleProduct,
    DEFAULT_SETTINGS]
  intro hcontra
  rw [applyRule_nonpos _ (by norm_num : (-100 : ℚ) ≤ 0)] at hcontra
  exact absurd hcontra (by norm_num)

/-- Witness for the amended C10 at a concrete candidate that does receive a
terminal outcome (the seller-count rejection): its status is not error. -/
theorem c10_witness :
    AmazonItemInfo.price { sampleInfo with sellerCount := some 1 } = some 100
  ∧ (0 < (100 : ℚ))
  ∧ evalCandidate plainSettings [] (some { sampleInfo with sellerCount := some 1 })
      sampleProduct =
      CandidateStep.result
        ⟨"B00TEST001", "テスト商品", ListingStatus.forbidden, sellerMsg 1, none, none⟩
  ∧ (⟨"B00TEST001", "テスト商品", ListingStatus.forbidden, sellerMsg 1, none,
        none⟩ : ListingResultItem).status ≠ ListingStatus.error := by
  have heval : evalCandidate plainSettings []
      (some { sampleInfo with sellerCount := some 1 }) sampleProduct =
      CandidateStep.result
        ⟨"B00TEST001", "テスト商品", ListingStatus.forbidden, sellerMsg 1, none, none⟩ := by
    simp only [evalCandidate, show sampleInfo.price = some 100 from rfl]
    rw [if_neg (by norm_num : ¬(100 : ℚ) = 0)]
    unfold checkPrime
    rw [if_neg (by decide)]
    unfold checkSeller
    simp only []
    rw [if_pos (by decide : (1 : ℤ) ≤ 1)]
    decide
  exact ⟨rfl, by norm_num, heval,
    c10_positive_price_no_error.2 plainSettings []
      { sampleInfo with sellerCount := some 1 } sampleProduct 100
      ⟨"B00TEST001", "テスト商品", ListingStatus.forbidden, sellerMsg 1, none, none⟩
      rfl (by norm_num) heval⟩

/-- Claim C3: the seller-count rule is unconditional.  A candidate passing
availability (present non-zero price) and the Prime check whose known seller
count is at most 1 is rejected as forbidden with the seller message, for
every settings value; a candidate with unknown seller count is not rejected
by this rule (with the remaining checks passing it reaches the payload). -/
theorem c3_seller_count_unconditional :
    (∀ (s : SettingsState) (ex : List String) (info : AmazonItemInfo) (p : Product)
      (pr : ℚ) (n : ℤ),
      info.price = some pr → pr ≠ 0 →
      ¬(s.primeOnly = true ∧ (info.isPrime = some false ∨ shipTooSlow info s = true)) →
      info.sellerCount = some n → n ≤ 1 →
      evalCandidate s ex (some info) p =
        CandidateStep.result
          ⟨p.asin, p.name, ListingStatus.forbidden, sellerMsg n, none, none⟩)
  ∧ (∀ (s : SettingsState) (ex : List String) (info : AmazonItemInfo) (p : Product)
      (pr : ℚ),
      info.price = some pr → 0 < pr →
      ¬(s.primeOnly = true ∧ (info.isPrime = some false ∨ shipTooSlow info s = true)) →
      info.sellerCount = none →
      p.asin ∉ s.noListASINs → wordHits s p.name = [] → p.asin ∉ ex →
      (evalCandidate s ex (some info) p).isPayload = true) := by
  constructor
  · intro s ex info p pr n hpr h0 hprime hn hle
    simp only [evalCandidate, hpr]
    rw [if_neg h0]
    unfold checkPrime
    rw [if_neg hprime]
    simp only [checkSeller, hn]
    rw [if_pos hle]
  · intro s ex info p pr hpr hpos hprime hn hasin hw hex
    simp only [evalCandidate, hpr]
    rw [if_neg hpos.ne']
    unfold checkPrime
    rw [if_neg hprime]
    simp only [checkSeller, hn]
    unfold checkAsinDeny
    rw [if_neg hasin]
    unfold checkWords
    rw [hw, if_neg (by simp)]
    unfold checkExisting
    rw [if_neg hex]
    unfold buildPayload
    rw [if_neg (by have := applyRule_pos_ge_one s.rules hpos; omega)]
    rfl

/-- Witness for C3: a seller count of exactly 1 is rejected with the seller
message even under permissive settings, and an unknown seller count reaches
the payload stage. -/
theorem c3_witness :
    (AmazonItemInfo.sellerCount { sampleInfo with sellerCount := some 1 } = some 1
      ∧ (1 : ℤ) ≤ 1
      ∧ evalCandidate plainSettings [] (some { sampleInfo with sellerCount := some 1 })
          sampleProduct =
          CandidateStep.result
            ⟨"B00TEST001", "テスト商品", ListingStatus.forbidden, sellerMsg 1, none, none⟩)
  ∧ (AmazonItemInfo.sellerCount { sampleInfo with sellerCount := none } = none
      ∧ (evalCandidate plainSettings [] (some { sampleInfo with sellerCount := none })
          sampleProduct).isPayload = true) := by
  refine ⟨⟨rfl, le_refl 1, ?_⟩, ⟨rfl, ?_⟩⟩
  · exact c3_seller_count_unconditional.1 plainSettings []
      { sampleInfo with sellerCount := some 1 } sampleProduct 100 1 rfl
      (by norm_num) (by simp [plainSettings]) rfl (le_refl 1)
  · exact c3_seller_count_unconditional.2 plainSettings []
      { sampleInfo with sellerCount := none } sampleProduct 100 rfl
      (by norm_num) (by simp [plainSettings]) rfl (by simp [plainSettings])
      rfl (by simp)

/-- Claim C7 (amended): when the earlier checks pass and at least one
configured non-empty forbidden word occurs in the display name, the chain
yields a forbidden outcome whose hit list is exactly the filter of the
configured words, hence contains every matching non-empty word in configured
order.  The original claim fails for the empty configured word, which is a
substring of every name but is skipped by the source guard, as the
counterexample shows. -/
theorem c7_word_denylist_all_matches :
    (∀ (s : SettingsState) (name w : String), w ∈ s.noListWords → w ≠ "" →
      jsIncludes name w = true → w ∈ wordHits s name)
  ∧ (∀ (s : SettingsState) (ex : List String) (info : AmazonItemInfo) (p : Product)
      (pr : ℚ),
      info.price = some pr → pr ≠ 0 →
      ¬(s.primeOnly = true ∧ (info.isPrime = some false ∨ shipTooSlow info s = true)) →
      (∀ n, info.sellerCount = some n → 1 < n) →
      p.asin ∉ s.noListASINs →
      wordHits s p.name ≠ [] →
      evalCandidate s ex (some info) p =
        CandidateStep.result
          ⟨p.asin, p.name, ListingStatus.forbidden, wordDenyMsg (wordHits s p.name),
            some (wordHits s p.name), none⟩) := by
  constructor
  · intro s name w hmem hne hinc
    exact List.mem_filter.mpr ⟨hmem, by simp [hne, hinc]⟩
  · intro s ex info p pr hpr h0 hprime hseller hasin hhit
    have cont : checkAsinDeny s ex info p pr =
        CandidateStep.result
          ⟨p.asin, p.name, ListingStatus.forbidden, wordDenyMsg (wordHits s p.name),
            some (wordHits s p.name), none⟩ := by
      unfold checkAsinDeny
      rw [if_neg hasin]
      unfold checkWords
      rw [if_pos hhit]
    simp only [evalCandidate, hpr]
    rw [if_neg h0]
    unfold checkPrime
    rw [if_neg hprime]
    cases hsc : info.sellerCount with
    | some n => rw [checkSeller_known_gt hsc (hseller n hsc), cont]
    | none => rw [checkSeller_unknown hsc, cont]

/-- Counterexample for C7 as stated: the empty string is a configured
forbidden word and a substring of the name, yet the candidate is not
rejected — it reaches the payload stage, because the source skips falsy
words before matching. -/
theorem c7_counterexample :
    ("" ∈ SettingsState.noListWords { plainSettings with noListWords := [""] })
  ∧ jsIncludes "A" "" = true
  ∧ evalCandidate { plainSettings with noListWords := [""] } [] (some sampleInfo)
      { sampleProduct with name := "A" } =
      CandidateStep.payload
        ⟨"B00TEST001", 100, "645035", "テスト商品", none, none, some 2, none⟩ := by
  refine ⟨by decide, by decide, ?_⟩
  have hap : applyRule 100 ([] : List PriceRule) = 100 := by
    rw [@applyRule_find_none 100 [] (by norm_num) rfl, jsRound_100]
    norm_num
  have s1 : evalCandidate { plainSettings with noListWords := [""] } [] (some sampleInfo)
      { sampleProduct with name := "A" } =
      checkPrime { plainSettings with noListWords := [""] } [] sampleInfo
        { sampleProduct with name := "A" } 100 := by
    simp only [evalCandidate, show sampleInfo.price = some 100 from rfl]
    rw [if_neg (by norm_num : ¬(100 : ℚ) = 0)]
  rw [s1]
  unfold checkPrime
  rw [if_neg (by decide)]
  unfold checkSeller
  simp only [show sampleInfo.sellerCount = some 5 from rfl]
  rw [if_neg (by decide)]
  unfold checkAsinDeny
  rw [if_neg (by decide)]
  unfold checkWords
  rw [if_neg (by decide)]
  unfold checkExisting
  rw [if_neg (by decide)]
  simp only [buildPayload]
  rw [show ({ plainSettings with noListWords := [""] } : SettingsState).rules = [] from rfl,
    hap]
  rw [if_neg (by decide : ¬(100 : ℤ) ≤ 0)]
  decide

/-- Witness for the amended C7: two configured words both occurring in the
name are both captured, a hit list of length 2. -/
theorem c7_witness :
    (wordHits { plainSettings with noListWords := ["禁", "止"] } "禁止商品").length = 2
  ∧ evalCandidate { plainSettings with noListWords := ["禁", "止"] } [] (some sampleInfo)
      { sampleProduct with name := "禁止商品" } =
      CandidateStep.result
        ⟨"B00TEST001", "禁止商品", ListingStatus.forbidden,
          wordDenyMsg (wordHits { plainSettings with noListWords := ["禁", "止"] } "禁止商品"),
          some (wordHits { plainSettings with noListWords := ["禁", "止"] } "禁止商品"),
          none⟩ := by
  refine ⟨by decide, ?_⟩
  exact c7_word_denylist_all_matches.2 { plainSettings with noListWords := ["禁", "止"] }
    [] sampleInfo { sampleProduct with name := "禁止商品" } 100 rfl (by norm_num)
    (by simp [plainSettings]) (fun n hn => by simp [sampleInfo] at hn; omega)
    (by simp [plainSettings]) (by decide)

/-- Counterexample for C1 as stated: a title with a razor keyword, an
electric hint and a disposable-blade hint classifies as the appliance
category, not daily goods — the appliance check matches first and returns
immediately, so the disposable-hint branch is never consulted. -/
theorem c1_counterexample :
    ("シェーバー" ∈ RAZOR_KEYWORDS ∧ jsIncludes "電動シェーバー 替刃" "シェーバー" = true)
  ∧ ("電動" ∈ ELECTRIC_HINTS ∧ jsIncludes "電動シェーバー 替刃" "電動" = true)
  ∧ ("替刃" ∈ DAILY_RAZOR_HINTS ∧ jsIncludes "電動シェーバー 替刃" "替刃" = true)
  ∧ getMainCategoryCode (some "電動シェーバー 替刃") = "120000033"
  ∧ classifyQoo10Category (some "電動シェーバー 替刃") =
      { main := "120000033", beautySecondSubCat := none }
  ∧ ("120000033" : String) ≠ "100000018" := by decide

/-- Claim C1 (amended): for every title containing a razor keyword, an
electric hint and a disposable-blade hint, and no supplement keyword, the
classifier assigns the appliance category: the appliance check (razor plus
electric hint) runs first and returns, so the disposable-blade hint causes no
downgrade to daily goods. -/
theorem c1_razor_electric_disposable_is_appliance
    (title kr ke kd : String)
    (hkr : kr ∈ RAZOR_KEYWORDS) (h1 : jsIncludes title kr = true)
    (hke : ke ∈ ELECTRIC_HINTS) (h2 : jsIncludes title ke = true)
    (hkd : kd ∈ DAILY_RAZOR_HINTS) (h3 : jsIncludes title kd = true)
    (hs : isSupplement title = false) :
    getMainCategoryCode (some title) = "120000033" := by
  have hra : RAZOR_KEYWORDS.any (fun kw => jsIncludes title kw) = true :=
    List.any_eq_true.mpr ⟨kr, hkr, h1⟩
  have hea : ELECTRIC_HINTS.any (fun kw => jsIncludes title kw) = true :=
    List.any_eq_true.mpr ⟨ke, hke, h2⟩
  have happ : isBeautyAppliance title = true := by
    unfold isBeautyAppliance
    rw [hra, hea]
    simp
  unfold getMainCategoryCode
  simp [hs, happ]

/-- Witness for the amended C1 at the counterexample title. -/
theorem c1_witness :
    ("シェーバー" ∈ RAZOR_KEYWORDS ∧ "電動" ∈ ELECTRIC_HINTS ∧ "替刃" ∈ DAILY_RAZOR_HINTS
      ∧ isSupplement "電動シェーバー 替刃" = false)
  ∧ getMainCategoryCode (some "電動シェーバー 替刃") = "120000033" :=
  ⟨by decide,
    c1_razor_electric_disposable_is_appliance "電動シェーバー 替刃" "シェーバー" "電動" "替刃"
      (by decide) (by decide) (by decide) (by decide) (by decide) (by decide) (by decide)⟩

/-- Claim C5: a title containing both a supplement keyword and a razor
keyword classifies as the supplement category, because the supplement rule is
evaluated first in the cascade and the first match wins. -/
theorem c5_supplement_over_razor (title ks kr : String)
    (hks : ks ∈ SUPPLEMENT_KEYWORDS) (h1 : jsIncludes title ks = true)
    (hkr : kr ∈ RAZOR_KEYWORDS) (h2 : jsIncludes title kr = true) :
    getMainCategoryCode (some title) = "130000" := by
  have hs : isSupplement title = true := List.any_eq_true.mpr ⟨ks, hks, h1⟩
  unfold getMainCategoryCode
  simp [hs]

/-- Witness for C5 at a concrete title holding both keyword kinds. -/
theorem c5_witness :
    ("サプリ" ∈ SUPPLEMENT_KEYWORDS ∧ jsIncludes "サプリ カミソリ" "サプリ" = true
      ∧ "カミソリ" ∈ RAZOR_KEYWORDS ∧ jsIncludes "サプリ カミソリ" "カミソリ" = true)
  ∧ getMainCategoryCode (some "サプリ カミソリ") = "130000" :=
  ⟨by decide,
    c5_supplement_over_razor "サプリ カミソリ" "サプリ" "カミソリ"
      (by decide) (by decide) (by decide) (by decide)⟩

/-- Claim C4: when some manual map entry (in stored order) hits — non-empty
key whose lower-cased form occurs in the lower-cased title — chooseCategory
returns that entry code unchanged, for every settings value, bypassing the
automatic cascade entirely. -/
theorem c4_manual_map_precedence (info? : Option AmazonItemInfo) (p : Product)
    (s : SettingsState) (k : String) (code : ℤ)
    (h : s.categoryMap.find? (manualHit (jsLower (rawTitleOf info? p))) = some (k, code)) :
    chooseCategory info? p s = some code := by
  simp only [chooseCategory, h]

/-- Witness for C4: the default manual map hits on a title that also matches
an automatic beauty hair-care keyword, and the manual code is returned with
auto classification enabled. -/
theorem c4_witness :
    DEFAULT_SETTINGS.categoryMap.find?
        (manualHit (jsLower (rawTitleOf none { sampleProduct with name := "ヘナカラー" }))) =
      some ("ヘナ", 120000)
  ∧ DEFAULT_SETTINGS.autoCategoryEnabled = true
  ∧ jsIncludes "ヘナカラー" "ヘナ" = true
  ∧ chooseCategory none { sampleProduct with name := "ヘナカラー" } DEFAULT_SETTINGS =
      some 120000 :=
  ⟨by decide, rfl, by decide,
    c4_manual_map_precedence none { sampleProduct with name := "ヘナカラー" }
      DEFAULT_SETTINGS "ヘナ" 120000 (by decide)⟩

/-- Claim C8: the four aggregation buckets partition the outcome list: the
bucket lengths sum to the input length, each input outcome has exactly one of
the four statuses and belongs to a bucket exactly when its status is that
bucket status, and each bucket is a sublist of the input (input order
preserved). -/
theorem c8_aggregate_partition (results : List ListingResultItem) :
    ((aggExists results).length + (aggForbidden results).length +
      (aggError results).length + (aggSuccess results).length = results.length)
  ∧ (∀ r ∈ results,
      (r.status = ListingStatus.success ∨ r.status = ListingStatus.exists_ ∨
        r.status = ListingStatus.forbidden ∨ r.status = ListingStatus.error)
      ∧ (r ∈ aggExists results ↔ r.status = ListingStatus.exists_)
      ∧ (r ∈ aggForbidden results ↔ r.status = ListingStatus.forbidden)
      ∧ (r ∈ aggError results ↔ r.status = ListingStatus.error)
      ∧ (r ∈ aggSuccess results ↔ r.status = ListingStatus.success))
  ∧ ((aggExists results).Sublist results ∧ (aggForbidden results).Sublist results
      ∧ (aggError results).Sublist results ∧ (aggSuccess results).Sublist results) := by
  refine ⟨?_, ?_, List.filter_sublist _, List.filter_sublist _,
    List.filter_sublist _, List.filter_sublist _⟩
  · induction results with
    | nil => rfl
    | cons r t ih =>
      cases hr : r.status <;>
        simp [aggExists, aggForbidden, aggError, aggSuccess, List.filter_cons, hr]
          at ih ⊢ <;>
        omega
  · intro r hr
    refine ⟨by cases h : r.status <;> simp [h], ?_, ?_, ?_, ?_⟩ <;>
      simp [aggExists, aggForbidden, aggError, aggSuccess, List.mem_filter, hr]

/-- Witness for C8 at a concrete outcome list. -/
theorem c8_witness :
    (⟨"A", "", ListingStatus.exists_, "", none, none⟩ : ListingResultItem) ∈
        [(⟨"A", "", ListingStatus.exists_, "", none, none⟩ : ListingResultItem)]
  ∧ ((⟨"A", "", ListingStatus.exists_, "", none, none⟩ : ListingResultItem) ∈
        aggExists [⟨"A", "", ListingStatus.exists_, "", none, none⟩] ↔
      (⟨"A", "", ListingStatus.exists_, "", none, none⟩ : ListingResultItem).status =
        ListingStatus.exists_) :=
  ⟨by simp,
    ((c8_aggregate_partition [⟨"A", "", ListingStatus.exists_, "", none, none⟩]).2.1
      ⟨"A", "", ListingStatus.exists_, "", none, none⟩ (by simp)).2.1⟩

/-- Claim C9: each wrapper is a total function of the transport outcome and
degrades a failed call to a benign value — the bulk fetch and the existence
check to the empty list, the listing creation to one ok := false result per
submitted payload; no wrapper propagates the failure. -/
theorem c9_wrappers_degrade :
    (∀ (asins : List String) (e : String), fetchAmazonBulk asins (.fail e) = [])
  ∧ (∀ (asins : List String) (e : String), checkQoo10Existing asins (.fail e) = [])
  ∧ (∀ (items : List Qoo10ListingPayload) (e : String),
      createQoo10Listings items (.fail e) =
        items.map (fun it =>
          { asin := it.asin, ok := false, message := some createFailMsg,
            code := none, qoo10ItemCode := none })
      ∧ (createQoo10Listings items (.fail e)).all (fun res => res.ok = false) = true) := by
  refine ⟨?_, ?_, ?_⟩
  · intro asins e
    by_cases h : asins = [] <;> simp [fetchAmazonBulk, h]
  · intro asins e
    by_cases h : asins = [] <;> simp [checkQoo10Existing, h]
  · intro items e
    by_cases h : items = []
    · subst h
      exact ⟨rfl, rfl⟩
    · constructor <;> simp [createQoo10Listings, h, List.all_eq_true]

/-! ### Parser round-trip groundwork -/

theorem charToNat_ofNat_valid {n : Nat} (h : n < 55296) : (Char.ofNat n).toNat = n := by
  simp [Char.ofNat, Nat.isValidChar, h, Char.ofNatAux, Char.toNat, UInt32.toNat]

theorem upperAlnum_bounds {c : Char} (h : isUpperAlnum c = true) :
    (65 ≤ c.toNat ∧ c.toNat ≤ 90) ∨ (48 ≤ c.toNat ∧ c.toNat ≤ 57) := by
  simpa [isUpperAlnum] using h

theorem upperAlnum_not_space {c : Char} (h : isUpperAlnum c = true) :
    isJsSpace c = false := by
  have hb := upperAlnum_bounds h
  simp only [isJsSpace, Bool.or_eq_false_iff, decide_eq_false_iff_not]
  omega

theorem upperAlnum_not_delim {c : Char} (h : isUpperAlnum c = true) :
    isCellDelim c = false := by
  have hb := upperAlnum_bounds h
  simp only [isCellDelim, Bool.or_eq_false_iff, decide_eq_false_iff_not]
  refine ⟨⟨fun hc => ?_, fun hc => ?_⟩, fun hc => ?_⟩ <;>
    · subst hc
      revert hb
      decide

theorem upperAlnum_not_quote {c : Char} (h : isUpperAlnum c = true) :
    isQuoteCh c = false := by
  have hb := upperAlnum_bounds h
  simp only [isQuoteCh, Bool.or_eq_false_iff, decide_eq_false_iff_not]
  refine ⟨fun hc => ?_, fun hc => ?_⟩ <;>
    · subst hc
      revert hb
      decide

theorem upperAlnum_ne_lf {c : Char} (h : isUpperAlnum c = true) : c ≠ '\n' := by
  intro hc
  subst hc
  revert h
  decide

theorem upperAlnum_ne_cr {c : Char} (h : isUpperAlnum c = true) : c ≠ '\r' := by
  intro hc
  subst hc
  revert h
  decide

theorem upperAlnum_ne_bom {c : Char} (h : isUpperAlnum c = true) : c ≠ '\uFEFF' := by
  intro hc
  subst hc
  revert h
  decide

theorem upperAlnum_alnumCI {c : Char} (h : isUpperAlnum c = true) :
    isAlnumCI c = true := by
  have hb := upperAlnum_bounds h
  simp only [isAlnumCI, Bool.or_eq_true, decide_eq_true_eq]
  omega

theorem jsUpperChar_fixed {c : Char} (h : isUpperAlnum c = true) :
    jsUpperChar c = c := by
  have hb := upperAlnum_bounds h
  unfold jsUpperChar
  rw [if_neg (by omega)]

theorem jsUpperChar_upperAlnum {c : Char} (h : isAlnumCI c = true) :
    isUpperAlnum (jsUpperChar c) = true := by
  simp only [isAlnumCI, Bool.or_eq_true, decide_eq_true_eq] at h
  unfold jsUpperChar
  split
  · rename_i hc
    have hval : (Char.ofNat (c.toNat - 32)).toNat = c.toNat - 32 :=
      charToNat_ofNat_valid (by omega)
    simp only [isUpperAlnum, Bool.or_eq_true, decide_eq_true_eq, hval]
    omega
  · rename_i hc
    simp only [isUpperAlnum, Bool.or_eq_true, decide_eq_true_eq]
    omega

theorem dropWhile_eq_self_of_none {p : Char → Bool} {l : List Char}
    (h : ∀ c ∈ l, p c = false) : l.dropWhile p = l := by
  cases l with
  | nil => rfl
  | cons a t => simp [List.dropWhile_cons, h a (List.mem_cons_self a t)]

theorem trimL_eq_self {l : List Char} (h : ∀ c ∈ l, isJsSpace c = false) :
    trimL l = l := by
  unfold trimL
  rw [dropWhile_eq_self_of_none h,
    dropWhile_eq_self_of_none (fun c hc => h c (List.mem_reverse.mp hc)),
    List.reverse_reverse]

theorem stripQuotesL_eq_self {l : List Char} (h : ∀ c ∈ l, isQuoteCh c = false) :
    stripQuotesL l = l := by
  unfold stripQuotesL
  rw [dropWhile_eq_self_of_none h,
    dropWhile_eq_self_of_none (fun c hc => h c (List.mem_reverse.mp hc)),
    List.reverse_reverse]

theorem splitCellsAux_no_delim (acc : List Char) {l : List Char}
    (h : ∀ c ∈ l, isCellDelim c = false) :
    splitCellsAux acc l = [acc.reverse ++ l] := by
  induction l generalizing acc with
  | nil => simp [splitCellsAux]
  | cons a t ih =>
    have ha := h a (List.mem_cons_self a t)
    simp [splitCellsAux, ha, ih (a :: acc) (fun c hc => h c (List.mem_cons_of_mem a hc))]

theorem splitCells_no_delim {l : List Char} (h : ∀ c ∈ l, isCellDelim c = false) :
    splitCells l = [l] := by
  simpa [splitCells] using splitCellsAux_no_delim [] h

theorem splitOnLF_append {xs ys p : List Char} {m : List (List Char)}
    (h : ∀ c ∈ xs, c ≠ '\n') (hy : splitOnLF ys = p :: m) :
    splitOnLF (xs ++ ys) = (xs ++ p) :: m := by
  induction xs with
  | nil => simpa using hy
  | cons a t ih =>
    have ha : a ≠ '\n' := h a (List.mem_cons_self a t)
    have iht := ih (fun c hc => h c (List.mem_cons_of_mem a hc))
    simp only [List.cons_append]
    unfold splitOnLF
    rw [if_neg ha, iht]

theorem splitOnLF_intercalate {L : List (List Char)} (hne : L ≠ [])
    (h : ∀ s ∈ L, ∀ c ∈ s, c ≠ '\n') :
    splitOnLF (intercalateNL L) = L := by
  induction L with
  | nil => exact absurd rfl hne
  | cons x xs ih =>
    have hx : ∀ c ∈ x, c ≠ '\n' := h x (List.mem_cons_self x xs)
    cases xs with
    | nil =>
      have := @splitOnLF_append x [] [] [] hx rfl
      simpa [intercalateNL] using this
    | cons y ys =>
      have ihy := ih (by simp) (fun s hs => h s (List.mem_cons_of_mem x hs))
      have hy : splitOnLF ('\n' :: intercalateNL (y :: ys)) = [] :: (y :: ys) := by
        unfold splitOnLF
        rw [if_pos rfl, ihy]
      have := splitOnLF_append hx hy
      simpa [intercalateNL] using this

theorem dropTrailingCR_eq_self {l : List Char} (h : ∀ c ∈ l, c ≠ '\r') :
    dropTrailingCR l = l := by
  unfold dropTrailingCR
  rw [if_neg]
  intro hc
  obtain ⟨hne, heq⟩ := List.mem_getLast?_eq_getLast (Option.mem_def.mpr hc)
  exact h '\r' (by rw [heq]; exact List.getLast_mem hne) rfl

theorem mapInit_id {L : List (List Char)} (h : ∀ s ∈ L, dropTrailingCR s = s) :
    mapInit dropTrailingCR L = L := by
  induction L with
  | nil => rfl
  | cons x xs ih =>
    cases xs with
    | nil => simp [mapInit]
    | cons y ys =>
      have hx := h x (List.mem_cons_self x (y :: ys))
      have iht := ih (fun s hs => h s (List.mem_cons_of_mem x hs))
      simp only [mapInit] at iht ⊢
      rw [hx, iht]

theorem filterMap_eq_self {f : List Char → Option (List Char)}
    {L : List (List Char)} (h : ∀ s ∈ L, f s = some s) : L.filterMap f = L := by
  induction L with
  | nil => rfl
  | cons x xs ih =>
    rw [List.filterMap_cons, h x (List.mem_cons_self x xs),
      ih (fun s hs => h s (List.mem_cons_of_mem x hs))]

theorem mem_dedupJsAux {x : List Char} :
    ∀ {l seen : List (List Char)}, x ∈ dedupJsAux seen l ↔ (x ∈ l ∧ x ∉ seen) := by
  intro l
  induction l with
  | nil => simp [dedupJsAux]
  | cons a t ih =>
    intro seen
    unfold dedupJsAux
    split
    · rename_i ha
      rw [ih]
      constructor
      · rintro ⟨hx, hs⟩
        exact ⟨List.mem_cons_of_mem a hx, hs⟩
      · rintro ⟨hx, hs⟩
        rcases List.mem_cons.mp hx with rfl | hx2
        · exact absurd ha hs
        · exact ⟨hx2, hs⟩
    · rename_i ha
      simp only [List.mem_cons, ih]
      constructor
      · rintro (rfl | ⟨h1, h2⟩)
        · exact ⟨Or.inl rfl, ha⟩
        · exact ⟨Or.inr h1, fun hc => h2 (Or.inr hc)⟩
      · rintro ⟨rfl | h1, h2⟩
        · exact Or.inl rfl
        · by_cases hxa : x = a
          · exact Or.inl hxa
          · exact Or.inr ⟨h1, by simp [List.mem_cons, hxa, h2]⟩

theorem dedupJsAux_nodup : ∀ (l seen : List (List Char)), (dedupJsAux seen l).Nodup := by
  intro l
  induction l with
  | nil => intro seen; simp [dedupJsAux]
  | cons a t ih =>
    intro seen
    unfold dedupJsAux
    split
    · exact ih seen
    · simp only [List.nodup_cons, mem_dedupJsAux]
      exact ⟨fun hc => hc.2 (List.mem_cons_self a seen), ih (a :: seen)⟩

theorem mem_dedupJs {x : List Char} {l : List (List Char)} :
    x ∈ dedupJs l ↔ x ∈ l := by
  simp [dedupJs, mem_dedupJsAux]

theorem dedupJs_nodup (l : List (List Char)) : (dedupJs l).Nodup :=
  dedupJsAux_nodup l []

theorem dedupJsAux_of_nodup :
    ∀ {l seen : List (List Char)}, l.Nodup → (∀ a ∈ l, a ∉ seen) →
      dedupJsAux seen l = l := by
  intro l
  induction l with
  | nil => intro seen _ _; rfl
  | cons a t ih =>
    intro seen hnd hsn
    unfold dedupJsAux
    rw [if_neg (hsn a (List.mem_cons_self a t))]
    congr 1
    refine ih (List.nodup_cons.mp hnd).2 ?_
    intro b hb
    simp only [List.mem_cons]
    rintro (rfl | hbs)
    · exact (List.nodup_cons.mp hnd).1 hb
    · exact hsn b (List.mem_cons_of_mem a hb) hbs

theorem dedupJs_of_nodup {l : List (List Char)} (h : l.Nodup) : dedupJs l = l :=
  dedupJsAux_of_nodup h (by simp)

theorem extractCell_good {idx : Option Nat} {row s : List Char}
    (h : extractCell idx row = some s) :
    s.length = 10 ∧ ∀ c ∈ s, isUpperAlnum c = true := by
  simp only [extractCell] at h
  split at h
  · exact absurd h (by simp)
  · split at h
    · exact absurd h (by simp)
    · rename_i cell hcell
      split at h
      · exact absurd h (by simp)
      · split at h
        · rename_i htest
          have hs : s = (trimL (stripQuotesL (trimL cell))).map jsUpperChar :=
            (Option.some.inj h).symm
          simp only [asinTest, Bool.and_eq_true, decide_eq_true_eq,
            List.all_eq_true] at htest
          subst hs
          constructor
          · simp [htest.1]
          · intro c hc
            obtain ⟨c0, hc0, rfl⟩ := List.mem_map.mp hc
            exact jsUpperChar_upperAlnum (htest.2 c0 hc0)
        · exact absurd h (by simp)

theorem parseAsinCsvL_good {t s : List Char} (hs : s ∈ parseAsinCsvL t) :
    s.length = 10 ∧ ∀ c ∈ s, isUpperAlnum c = true := by
  simp only [parseAsinCsvL] at hs
  split at hs
  · exact absurd hs (by simp)
  · split at hs <;>
    · rw [mem_dedupJs] at hs
      obtain ⟨row, -, hrow⟩ := List.mem_filterMap.mp hs
      exact extractCell_good hrow

theorem parseAsinCsvL_nodup (t : List Char) : (parseAsinCsvL t).Nodup := by
  simp only [parseAsinCsvL]
  split
  · exact List.nodup_nil
  · split <;> exact dedupJs_nodup _

theorem extractCell_id {r : List Char}
    (hlen : r.length = 10) (hup : ∀ c ∈ r, isUpperAlnum c = true) :
    extractCell none r = some r := by
  have hrne : r ≠ [] := by
    intro hc
    rw [hc] at hlen
    simp at hlen
  have hnospace : ∀ c ∈ r, isJsSpace c = false :=
    fun c hc => upperAlnum_not_space (hup c hc)
  have hnoquote : ∀ c ∈ r, isQuoteCh c = false :=
    fun c hc => upperAlnum_not_quote (hup c hc)
  have htest : asinTest r = true := by
    simp only [asinTest, Bool.and_eq_true, decide_eq_true_eq, List.all_eq_true]
    exact ⟨hlen, fun c hc => upperAlnum_alnumCI (hup c hc)⟩
  simp only [extractCell]
  rw [if_neg hrne]
  rw [splitCells_no_delim (fun c hc => upperAlnum_not_delim (hup c hc))]
  simp only [Option.getD, List.get?]
  rw [trimL_eq_self hnospace, stripQuotesL_eq_self hnoquote, trimL_eq_self hnospace]
  rw [if_neg hrne, if_pos htest]
  rw [List.map_congr_left (fun c hc => jsUpperChar_fixed (hup c hc))]
  simp

theorem parseAsinCsvL_fixed {L : List (List Char)}
    (hgood : ∀ s ∈ L, s.length = 10 ∧ ∀ c ∈ s, isUpperAlnum c = true)
    (hnd : L.Nodup) :
    parseAsinCsvL (intercalateNL L) = L := by
  cases L with
  | nil => rfl
  | cons x xs =>
    have hx := hgood x (List.mem_cons_self x xs)
    have hnospace : ∀ s ∈ x :: xs, ∀ c ∈ s, isJsSpace c = false :=
      fun s hs c hc => upperAlnum_not_space ((hgood s hs).2 c hc)
    have h1 : splitLines (intercalateNL (x :: xs)) = x :: xs := by
      unfold splitLines
      rw [splitOnLF_intercalate (by simp)
        (fun s hs c hc => upperAlnum_ne_lf ((hgood s hs).2 c hc))]
      exact mapInit_id (fun s hs => dropTrailingCR_eq_self
        (fun c hc => upperAlnum_ne_cr ((hgood s hs).2 c hc)))
    have h2 : ((splitLines (intercalateNL (x :: xs))).map trimL).filter
        (fun l => l ≠ []) = x :: xs := by
      rw [h1, List.map_congr_left (fun s hs => trimL_eq_self (hnospace s hs))]
      rw [show List.map (fun s => s) (x :: xs) = x :: xs from by simp]
      rw [List.filter_eq_self.mpr ?_]
      intro s hs
      have hlen := (hgood s hs).1
      simp only [ne_eq, decide_eq_true_eq]
      intro hc
      rw [hc] at hlen
      simp at hlen
    have hbomne : x.head? ≠ some '\uFEFF' := by
      cases x with
      | nil =>
        have := hx.1
        simp at this
      | cons c0 t0 =>
        simp only [List.head?]
        intro hc
        have hc0 : c0 = '\uFEFF' := by injection hc
        exact upperAlnum_ne_bom (hx.2 c0 (List.mem_cons_self c0 t0)) hc0
    have hne4 : (x.map jsLowerChar) ≠ asinHeaderToken := by
      intro hc
      have hlc := congrArg List.length hc
      rw [List.length_map, hx.1] at hlc
      simp [asinHeaderToken] at hlc
    simp only [parseAsinCsvL]
    rw [h2]
    simp only []
    rw [if_neg hbomne]
    rw [splitCells_no_delim (fun c hc => upperAlnum_not_delim (hx.2 c hc))]
    simp only [List.map]
    rw [stripQuotesL_eq_self (fun c hc => upperAlnum_not_quote (hx.2 c hc)),
      trimL_eq_self (fun c hc => upperAlnum_not_space (hx.2 c hc))]
    rw [show List.findIdx? (fun c => c = asinHeaderToken) [x.map jsLowerChar] = none
      from by simp [List.findIdx?, hne4]]
    simp only []
    rw [filterMap_eq_self (fun s hs => extractCell_id (hgood s hs).1 (hgood s hs).2)]
    exact dedupJs_of_nodup hnd

/-- Counterexample for C6 as stated: the token of the claimed dedup example
has eleven characters, not ten, so it fails the identifier pattern and the
claimed input extracts to the empty result rather than a singleton set. -/
theorem c6_counterexample :
    ("B00TEST0001".data.length = 11)
  ∧ asinTest "B00TEST0001".data = false
  ∧ parseAsinCsv "B00TEST0001\nB00TEST0001" = []
  ∧ parseAsinCsv "B00TEST0001\nB00TEST0001" ≠ ["B00TEST0001"] := by decide

/-- Claim C6 (amended): extraction deduplicates — a genuinely ten-character
identifier repeated on two input lines yields the single-element result — and
extraction is idempotent on its own output: for every input text, re-parsing
the newline-joined output yields the same output again. -/
theorem c6_parse_dedup_idempotent :
    parseAsinCsv "B00TEST001\nB00TEST001" = ["B00TEST001"]
  ∧ ∀ text : String, parseAsinCsv (joinNL (parseAsinCsv text)) = parseAsinCsv text := by
  refine ⟨by decide, ?_⟩
  intro text
  unfold parseAsinCsv joinNL
  rw [show List.map String.data ((parseAsinCsvL text.data).map String.mk) =
      parseAsinCsvL text.data from by
    rw [List.map_map]
    rw [show String.data ∘ String.mk = id from rfl]
    exact List.map_id _]
  rw [show (String.mk (intercalateNL (parseAsinCsvL text.data))).data =
      intercalateNL (parseAsinCsvL text.data) from rfl]
  rw [parseAsinCsvL_fixed (fun s hs => parseAsinCsvL_good hs) (parseAsinCsvL_nodup _)]
